import Mathlib

/-!
Verification of the sqjdb document-store layer (`sqjdb.go`).

The embedding is shallow: records are modelled as flat JSON documents
(association lists of field name to value), which is what Go reflection and
`encoding/json` observe of a caller struct; a table's stored state is the list
of documents in insertion order; the SQLite engine (an external capability per
the spec, §1/§6) is modelled by explicit predicates for the where-clauses the
library composes, a unique-index check on the projected `ID` field, and a
field-level merge for `jsonb_patch`.  Machine integers never overflow on the
paths modelled, so integer payloads are `Int`; float payloads are abstracted by
their exact denoted value (the Go `float64(v)` widening of a `float32` is
value-preserving, so it is the identity on that abstraction).
-/

namespace Sqjdb

/-- A JSON scalar stored in a document field.  Flat documents suffice: the
spec's merge description (§4 Patch) is field-level. -/
inductive JValue where
| str (s : String)
| int (n : Int)
| bool (b : Bool)
| null
deriving DecidableEq

/-- A record as seen by reflection and by the JSON codec: an ordered list of
(field name, value) pairs. -/
abbrev Doc := List (String × JValue)

/-- `reflect.Value.FieldByName`: the first field with the given name, if any. -/
def lookupField (d : Doc) (k : String) : Option JValue :=
  match d with
  | [] => none
  | p :: rest => if p.1 = k then some p.2 else lookupField rest k

/-- `reflect.Value.FieldByName(k).SetString`-style update on a copy: every
field named `k` gets value `v`, other fields are untouched. -/
def setField (d : Doc) (k : String) (v : JValue) : Doc :=
  d.map (fun p => if p.1 = k then (p.1, v) else p)

/-- `reflect.Value.IsZero` for the field-value kinds modelled. -/
def JValue.isZero : JValue → Bool
  | .str s => s == ""
  | .int n => n == 0
  | .bool b => !b
  | .null => true

/-- A dynamically typed Go value (`any`) as passed to `Bind` and carried in
`SQL.Args`.  Integer payloads are the denoted integers (Go widening to `int64`
preserves them); float payloads are abstracted by their denoted value.
`other` stands for a value of any dynamic type with no case in `Bind`
(composites, unsigned integers, ...), carrying its `%T` type name and its
`%v` rendering.  `int8` is distinguished from `other` because the claim about
`Bind` quantifies over signed integer widths: the source type-switch has no
`int8` arm, so an `int8` value reaches the default arm. -/
inductive GoValue where
| int (v : Int)
| int8 (v : Int)
| int16 (v : Int)
| int32 (v : Int)
| int64 (v : Int)
| bool (v : Bool)
| bytes (v : List Nat)
| float32 (v : Int)
| float64 (v : Int)
| null
| string (v : String)
| other (ty : String) (rendered : String)
deriving DecidableEq

/-- Go's `%T` verb for the modelled values. -/
def goTypeName : GoValue → String
  | .int _ => "int"
  | .int8 _ => "int8"
  | .int16 _ => "int16"
  | .int32 _ => "int32"
  | .int64 _ => "int64"
  | .bool _ => "bool"
  | .bytes _ => "[]uint8"
  | .float32 _ => "float32"
  | .float64 _ => "float64"
  | .null => "<nil>"
  | .string _ => "string"
  | .other ty _ => ty

/-- Go's `%v` verb for the modelled values. -/
def goRender : GoValue → String
  | .int v => toString v
  | .int8 v => toString v
  | .int16 v => toString v
  | .int32 v => toString v
  | .int64 v => toString v
  | .bool b => if b then "true" else "false"
  | .bytes bs => "[" ++ String.intercalate " " (bs.map toString) ++ "]"
  | .float32 v => toString v
  | .float64 v => toString v
  | .null => "<nil>"
  | .string s => s
  | .other _ rendered => rendered

/-- The value kinds for which `Bind` has a case arm.  The source type-switch
lists `int`, `int16`, `int32`, `int64`, `bool`, `[]byte`, `float32`,
`float64`, `nil` and `string`; `int8` has no arm and falls to the default,
as does any `other` kind. -/
def supportedKind : GoValue → Bool
  | .other _ _ => false
  | .int8 _ => false
  | _ => true

/-- A positional parameter-binding call into the engine
(`BindInt64`/`BindBool`/`BindBytes`/`BindFloat`/`BindNull`/`BindText`). -/
inductive EngineBind where
| int64 (v : Int)
| bool (v : Bool)
| bytes (v : List Nat)
| float (v : Int)
| null
| text (v : String)
deriving DecidableEq

/-- One engine binding call: the 1-based parameter position and the call. -/
structure BindCall where
  pos : Nat
  call : EngineBind
deriving DecidableEq

/-- The error kinds this layer produces (spec §7).  `noRows` is the `ErrNoRows`
sentinel; `unsupportedBind` is `errtrace.Errorf("unexpected value %v of type
%T", v, v)`; `statement` wraps an engine step/prepare failure. -/
inductive Err where
| noRows
| missingIDField
| unsupportedBind (val : String) (ty : String)
| statement (msg : String)
deriving DecidableEq

/-- `Bind(stmt, i, v)`: dispatch on the dynamic kind of `v`, mirroring the
type-switch in `sqjdb.go` lines 18–44.  The result is the engine call made;
the default arm fails with the `UnsupportedBindType` error naming the value
and its type. -/
def Bind (i : Nat) (v : GoValue) : Except Err BindCall :=
  match v with
  | .int n => .ok ⟨i, .int64 n⟩
  | .int8 n =>
      .error (.unsupportedBind (goRender (.int8 n)) (goTypeName (.int8 n)))
  | .int16 n => .ok ⟨i, .int64 n⟩
  | .int32 n => .ok ⟨i, .int64 n⟩
  | .int64 n => .ok ⟨i, .int64 n⟩
  | .bool b => .ok ⟨i, .bool b⟩
  | .bytes bs => .ok ⟨i, .bytes bs⟩
  | .float32 f => .ok ⟨i, .float f⟩
  | .float64 f => .ok ⟨i, .float f⟩
  | .null => .ok ⟨i, .null⟩
  | .string s => .ok ⟨i, .text s⟩
  | .other ty rendered =>
      .error (.unsupportedBind (goRender (.other ty rendered)) (goTypeName (.other ty rendered)))

/-- A query fragment: predicate text with positional placeholders, plus the
values to bind to them. -/
structure SQL where
  Query : String
  Args : List GoValue
deriving DecidableEq

/-- `ByID(id)`: the canonical single-record addressing fragment. -/
def ByID (id : String) : SQL :=
  { Query := "where data->>'ID' = ?", Args := [.string id] }

/-- A document table: its name and the precomputed insert statement text. -/
structure Table where
  Name : String
  qInsert : String
deriving DecidableEq

/-- `NewTable(name)`: pure construction, precomputing the insert text. -/
def NewTable (name : String) : Table :=
  { Name := name, qInsert := "insert into " ++ name ++ " (data) values (jsonb(?))" }

/-- `addSQLQuery`: the text appended to the query builder — each fragment's
clause preceded by a space, left to right. -/
def addSQLQuery (sqls : List SQL) : String :=
  match sqls with
  | [] => ""
  | part :: rest => " " ++ part.Query ++ addSQLQuery rest

/-- The inner loop of `bindSQLQuery`: bind each argument of one fragment at
consecutive positions starting at `i`. -/
def bindArgsFrom (i : Nat) (args : List GoValue) : Except Err (List BindCall) :=
  match args with
  | [] => .ok []
  | a :: rest =>
    match Bind i a with
    | .error e => .error e
    | .ok c =>
      match bindArgsFrom (i + 1) rest with
      | .error e => .error e
      | .ok cs => .ok (c :: cs)

/-- The outer loop of `bindSQLQuery`: fragments left to right, the running
position carried across fragments. -/
def bindSQLQueryAux (i : Nat) (sqls : List SQL) : Except Err (List BindCall) :=
  match sqls with
  | [] => .ok []
  | part :: rest =>
    match bindArgsFrom i part.Args with
    | .error e => .error e
    | .ok cs =>
      match bindSQLQueryAux (i + part.Args.length) rest with
      | .error e => .error e
      | .ok cs' => .ok (cs ++ cs')

/-- `bindSQLQuery(stmt, sqls)`: bind parameter indices start at 1. -/
def bindSQLQuery (sqls : List SQL) : Except Err (List BindCall) :=
  bindSQLQueryAux 1 sqls

/-- The query text `One` prepares (`sqjdb.go` lines 143–147). -/
def oneQueryText (t : Table) (sqls : List SQL) : String :=
  "select json(data) from " ++ t.Name ++ addSQLQuery sqls ++ " limit 1"

/-- The query text `All` prepares (`sqjdb.go` lines 166–169). -/
def allQueryText (t : Table) (sqls : List SQL) : String :=
  "select json(data) from " ++ t.Name ++ addSQLQuery sqls

/-- The query text `Delete` prepares (`sqjdb.go` lines 192–195). -/
def deleteQueryText (t : Table) (sqls : List SQL) : String :=
  "delete from " ++ t.Name ++ addSQLQuery sqls

/-- The query text `patchOrReplace` prepares: `update <name>` followed by the
set-clause fragment (whose single argument is the serialized record) prepended
to the caller's fragments (`sqjdb.go` lines 209–218). -/
def patchOrReplaceQuery (t : Table) (partQ : String) (jsonArgs : List GoValue)
    (sqls : List SQL) : String :=
  "update " ++ t.Name ++ addSQLQuery ({ Query := partQ, Args := jsonArgs } :: sqls)

/-- Crockford base-32 alphabet used by ULID rendering. -/
def crockford : List Char :=
  ['0', '1', '2', '3', '4', '5', '6', '7', '8', '9',
   'A', 'B', 'C', 'D', 'E', 'F', 'G', 'H', 'J', 'K',
   'M', 'N', 'P', 'Q', 'R', 'S', 'T', 'V', 'W', 'X', 'Y', 'Z']

/-- One base-32 digit. -/
def b32Char (n : Nat) : Char :=
  crockford.getD (n % 32) '0'

/-- `w` base-32 digits of `n`, big-endian. -/
def encodeB32Chars (w : Nat) (n : Nat) : List Char :=
  match w with
  | 0 => []
  | w' + 1 => encodeB32Chars w' (n / 32) ++ [b32Char (n % 32)]

/-- Models the external ULID capability `ulid.Make().String()` (spec §3
Identifier, §9): a pure function of the timestamp and entropy inputs, rendered
as the fixed 26-character string — 10 base-32 digits of the 48-bit timestamp
followed by 16 digits of the 80-bit entropy. -/
def ulidMake (time rand : Nat) : String :=
  String.mk (encodeB32Chars 10 time ++ encodeB32Chars 16 rand)

/-- The SQL text rendering of a scalar, as `data->>'ID'` produces it. -/
def jvalText : JValue → String
  | .str s => s
  | .int n => toString n
  | .bool b => if b then "1" else "0"
  | .null => ""

/-- Models the engine's projection `data->>'ID'` on a stored document: `none`
is SQL NULL (field absent or JSON null), otherwise the text rendering. -/
def projectID (d : Doc) : Option String :=
  match lookupField d "ID" with
  | none => none
  | some .null => none
  | some v => some (jvalText v)

/-- `Table.Insert` (`sqjdb.go` lines 80–104) acting on a table state (the list
of stored documents): reflection looks up the `ID` field (failing with
`MissingIDField` when absent); a zero `ID` is replaced by a fresh ULID on a
copy of the record; the (copied) record is serialized and appended.  The
engine's unique index on `data->>'ID'` (created by `Migrate`) makes the step
fail with a statement error when a stored row already carries the same
non-NULL projected `ID`. -/
def Table.Insert (t : Table) (time rand : Nat) (state : List Doc) (doc : Doc) :
    Except Err Doc × List Doc :=
  match lookupField doc "ID" with
  | none => (.error .missingIDField, state)
  | some vID =>
    let doc' := if vID.isZero then setField doc "ID" (.str (ulidMake time rand)) else doc
    if state.any (fun r => (projectID r == projectID doc') && (projectID r).isSome) then
      (.error (.statement ("inserting document in " ++ t.Name)), state)
    else
      (.ok doc', state ++ [doc'])

/-- `Table.One` (`sqjdb.go` lines 142–163) after the engine prepared
`oneQueryText`: bind the fragments' arguments (propagating a bind failure),
then step once — `pred` is the engine's evaluation of the composed
where-clause over a stored document, so the row returned (under `limit 1`) is
the first match; no match yields the `ErrNoRows` sentinel. -/
def Table.One (t : Table) (sqls : List SQL) (pred : Doc → Bool) (state : List Doc) :
    Except Err Doc :=
  match bindSQLQuery sqls with
  | .error e => .error e
  | .ok _ =>
    match (state.filter pred).head? with
    | none => .error .noRows
    | some d => .ok d

/-- `Table.All` (`sqjdb.go` lines 165–189) after the engine prepared
`allQueryText`: bind, then step until no row remains, collecting every
matching document in order. -/
def Table.All (t : Table) (sqls : List SQL) (pred : Doc → Bool) (state : List Doc) :
    Except Err (List Doc) :=
  match bindSQLQuery sqls with
  | .error e => .error e
  | .ok _ => .ok (state.filter pred)

/-- `Table.Delete` (`sqjdb.go` lines 191–207): bind (propagating a bind
failure before any step, leaving the state untouched), then step once,
removing every matching row. -/
def Table.Delete (t : Table) (sqls : List SQL) (pred : Doc → Bool) (state : List Doc) :
    Option Err × List Doc :=
  match bindSQLQuery sqls with
  | .error e => (some e, state)
  | .ok _ => (none, state.filter (fun d => !pred d))

/-- The JSON rendering of a scalar by the codec. -/
def renderJVal : JValue → String
  | .str s => "\x22" ++ s ++ "\x22"
  | .int n => toString n
  | .bool b => if b then "true" else "false"
  | .null => "null"

/-- `json.Marshal` of a document (codec capability, spec §6): the canonical
object rendering. -/
def renderDoc (d : Doc) : String :=
  "\x7b" ++
    String.intercalate "," (d.map (fun p => "\x22" ++ p.1 ++ "\x22:" ++ renderJVal p.2)) ++
    "\x7d"

/-- The byte sequence of a serialized document (bytes abstracted as code
points; serialization internals are out of scope per spec §1). -/
def strBytes (s : String) : List Nat :=
  s.data.map Char.toNat

/-- One stored field after a merge: overwritten when the partial carries the
same field name, untouched otherwise. -/
def mergeField (patch : Doc) (p : String × JValue) : String × JValue :=
  match lookupField patch p.1 with
  | some v => (p.1, v)
  | none => p

/-- Models the engine's `jsonb_patch(data, ?)` merge capability on flat
documents (spec §4 Patch): fields present in the partial overwrite the
corresponding stored fields; fields absent from the partial are untouched;
fields new in the partial are appended. -/
def mergePatch (stored patch : Doc) : Doc :=
  stored.map (mergeField patch)
  ++ patch.filter (fun p => (lookupField stored p.1).isNone)

/-- `Table.patchOrReplace` (`sqjdb.go` lines 209–230) after the engine
prepared `patchOrReplaceQuery`: serialize the record, prepend the set-clause
fragment carrying the serialized bytes as its single argument, bind
(propagating a bind failure before any step, leaving the state untouched),
then step once — every row matching `pred` is rewritten by `setSem`, the
engine's semantics of the set clause applied to the stored document and the
(deserialized) bound record. -/
def Table.patchOrReplace (t : Table) (partQ : String) (setSem : Doc → Doc → Doc)
    (doc : Doc) (sqls : List SQL) (pred : Doc → Bool) (state : List Doc) :
    Option Err × List Doc :=
  let jsonS := renderDoc doc
  match bindSQLQuery ({ Query := partQ, Args := [.bytes (strBytes jsonS)] } :: sqls) with
  | .error e => (some e, state)
  | .ok _ => (none, state.map (fun d => if pred d then setSem d doc else d))

/-- `Table.Patch` (`sqjdb.go` lines 232–234): the set clause is
`set data = jsonb_patch(data, ?)`, whose engine semantics is the document
merge `mergePatch`. -/
def Table.Patch (t : Table) (doc : Doc) (sqls : List SQL) (pred : Doc → Bool)
    (state : List Doc) : Option Err × List Doc :=
  t.patchOrReplace "set data = jsonb_patch(data, ?)" mergePatch doc sqls pred state

/-- `Table.Replace` (`sqjdb.go` lines 236–238): the set clause is
`set data = jsonb(?)`, whose engine semantics discards the stored document and
writes the bound record wholesale. -/
def Table.Replace (t : Table) (doc : Doc) (sqls : List SQL) (pred : Doc → Bool)
    (state : List Doc) : Option Err × List Doc :=
  t.patchOrReplace "set data = jsonb(?)" (fun _stored new => new) doc sqls pred state

/-- Models the engine's evaluation of the `ByID` fragment's where-clause
`where data->>'ID' = ?` with the text `id` bound: the projected `ID` is
non-NULL and equal to `id` (SQL `NULL = x` is not true). -/
def byIDPred (id : String) (d : Doc) : Bool :=
  projectID d == some id

/-- Models the engine's semantics of a statement with no where clause (an
empty fragment list): every stored row is addressed. -/
def emptyWherePred : Doc → Bool := fun _ => true

/-! ## Helper lemmas -/

theorem foldl_append_shift (l : List String) (acc : String) :
    List.foldl (fun r s => r ++ s) acc l = acc ++ List.foldl (fun r s => r ++ s) "" l := by
  induction l generalizing acc with
  | nil => simp
  | cons x xs ih =>
    simp only [List.foldl_cons]
    rw [ih (acc ++ x), ih ("" ++ x)]
    simp [String.append_assoc]

theorem join_cons (s : String) (l : List String) :
    String.join (s :: l) = s ++ String.join l := by
  simp only [String.join, List.foldl_cons]
  rw [foldl_append_shift]
  simp

theorem addSQLQuery_eq_join (sqls : List SQL) :
    addSQLQuery sqls = String.join (sqls.map (fun part => " " ++ part.Query)) := by
  induction sqls with
  | nil => simp [addSQLQuery, String.join]
  | cons part rest ih =>
    simp only [addSQLQuery, List.map_cons, join_cons, ih, String.append_assoc]

theorem Bind_pos {i : Nat} {v : GoValue} {c : BindCall} (h : Bind i v = .ok c) :
    c.pos = i := by
  cases v <;> simp [Bind] at h <;> simp [← h]

theorem Bind_ok_of_supported {v : GoValue} (h : supportedKind v = true) (i : Nat) :
    ∃ c : BindCall, Bind i v = .ok c ∧ c.pos = i := by
  cases v <;> simp_all [supportedKind, Bind]

theorem Bind_unsupported_error {v : GoValue} (h : supportedKind v = false) (i : Nat) :
    Bind i v = .error (.unsupportedBind (goRender v) (goTypeName v)) := by
  cases v <;> simp_all [supportedKind, Bind]

theorem bindArgsFrom_ok_of_all {args : List GoValue}
    (h : ∀ a ∈ args, supportedKind a = true) (i : Nat) :
    ∃ cs, bindArgsFrom i args = .ok cs := by
  induction args generalizing i with
  | nil => exact ⟨[], rfl⟩
  | cons a rest ih =>
    obtain ⟨c, hc, _⟩ := Bind_ok_of_supported (h a (List.mem_cons_self a rest)) i
    obtain ⟨cs, hcs⟩ := ih (fun b hb => h b (List.mem_cons_of_mem a hb)) (i + 1)
    exact ⟨c :: cs, by simp [bindArgsFrom, hc, hcs]⟩

theorem bindArgsFrom_append (i : Nat) (xs ys : List GoValue) :
    bindArgsFrom i (xs ++ ys) =
      match bindArgsFrom i xs with
      | .error e => .error e
      | .ok cs =>
        match bindArgsFrom (i + xs.length) ys with
        | .error e => .error e
        | .ok cs' => .ok (cs ++ cs') := by
  induction xs generalizing i with
  | nil =>
    simp only [List.nil_append, bindArgsFrom, List.length_nil, Nat.add_zero]
    cases bindArgsFrom i ys with
    | error e => rfl
    | ok cs => simp
  | cons a xs ih =>
    simp only [List.cons_append, bindArgsFrom, List.length_cons, List.append_eq]
    cases Bind i a with
    | error e => rfl
    | ok c =>
      simp only []
      rw [ih (i + 1)]
      cases bindArgsFrom (i + 1) xs with
      | error e => rfl
      | ok cs =>
        simp only []
        rw [show i + 1 + xs.length = i + (xs.length + 1) by omega]
        cases bindArgsFrom (i + (xs.length + 1)) ys with
        | error e => rfl
        | ok cs' => simp

theorem bindSQLQueryAux_eq_flatten (sqls : List SQL) (i : Nat) :
    bindSQLQueryAux i sqls = bindArgsFrom i ((sqls.map SQL.Args).flatten) := by
  induction sqls generalizing i with
  | nil => simp [bindSQLQueryAux, bindArgsFrom]
  | cons part rest ih =>
    simp only [bindSQLQueryAux, List.map_cons, List.flatten_cons]
    rw [bindArgsFrom_append, ih (i + part.Args.length)]

theorem bindArgsFrom_ok_spec {args : List GoValue} {i : Nat} {cs : List BindCall}
    (h : bindArgsFrom i args = .ok cs) :
    cs.map BindCall.pos = List.range' i args.length ∧
      List.Forall₂ (fun a c => Bind c.pos a = .ok c) args cs := by
  induction args generalizing i cs with
  | nil =>
    simp only [bindArgsFrom] at h
    cases h
    simp
  | cons a rest ih =>
    simp only [bindArgsFrom] at h
    cases hb : Bind i a with
    | error e => rw [hb] at h; cases h
    | ok c =>
      rw [hb] at h
      cases hr : bindArgsFrom (i + 1) rest with
      | error e => rw [hr] at h; cases h
      | ok cs' =>
        rw [hr] at h
        cases h
        obtain ⟨h1, h2⟩ := ih hr
        refine ⟨?_, ?_⟩
        · simp [List.range'_succ, h1, Bind_pos hb]
        · exact List.Forall₂.cons (by rw [Bind_pos hb]; exact hb) h2

theorem bindArgsFrom_error_indep {args : List GoValue} {i : Nat} {e : Err}
    (h : bindArgsFrom i args = .error e) (j : Nat) :
    bindArgsFrom j args = .error e := by
  induction args generalizing i j with
  | nil => simp [bindArgsFrom] at h
  | cons a rest ih =>
    simp only [bindArgsFrom] at h ⊢
    cases hs : supportedKind a with
    | false =>
      rw [Bind_unsupported_error hs i] at h
      rw [Bind_unsupported_error hs j]
      exact h
    | true =>
      obtain ⟨c, hc, _⟩ := Bind_ok_of_supported hs i
      obtain ⟨c', hc', _⟩ := Bind_ok_of_supported hs j
      rw [hc] at h
      rw [hc']
      cases hr : bindArgsFrom (i + 1) rest with
      | error e' =>
        rw [hr] at h
        cases h
        rw [ih hr (j + 1)]
      | ok cs =>
        rw [hr] at h
        cases h

theorem bindArgsFrom_error_of_unsupported {args : List GoValue}
    (h : ∃ a ∈ args, supportedKind a = false) (i : Nat) :
    ∃ val ty, bindArgsFrom i args = .error (.unsupportedBind val ty) := by
  induction args generalizing i with
  | nil => simp at h
  | cons a rest ih =>
    cases hs : supportedKind a with
    | false =>
      exact ⟨goRender a, goTypeName a, by simp [bindArgsFrom, Bind_unsupported_error hs i]⟩
    | true =>
      obtain ⟨b, hb, hbu⟩ := h
      have hbr : b ∈ rest := by
        cases List.mem_cons.mp hb with
        | inl heq => rw [heq] at hbu; rw [hs] at hbu; cases hbu
        | inr hr => exact hr
      obtain ⟨c, hc, _⟩ := Bind_ok_of_supported hs i
      obtain ⟨val, ty, he⟩ := ih ⟨b, hbr, hbu⟩ (i + 1)
      exact ⟨val, ty, by simp [bindArgsFrom, hc, he]⟩

theorem lookupField_setField_self (d : Doc) (k : String) (v : JValue) :
    lookupField (setField d k v) k = (lookupField d k).map (fun _ => v) := by
  induction d with
  | nil => simp [setField, lookupField]
  | cons p rest ih =>
    obtain ⟨pk, pv⟩ := p
    simp only [setField] at ih ⊢
    by_cases hp : pk = k
    · simp [lookupField, hp]
    · simp [lookupField, hp, ih]

theorem lookupField_setField_ne (d : Doc) (k k' : String) (v : JValue) (h : k' ≠ k) :
    lookupField (setField d k v) k' = lookupField d k' := by
  induction d with
  | nil => simp [setField, lookupField]
  | cons p rest ih =>
    obtain ⟨pk, pv⟩ := p
    simp only [setField] at ih ⊢
    by_cases hp : pk = k
    · subst hp
      have hk : ¬(pk = k') := fun hc => h hc.symm
      simp [lookupField, List.map_cons, hk, ih]
    · simp [lookupField, List.map_cons, hp, ih]

theorem lookupField_append (d d' : Doc) (k : String) :
    lookupField (d ++ d') k =
      match lookupField d k with
      | some v => some v
      | none => lookupField d' k := by
  induction d with
  | nil => simp [lookupField]
  | cons p rest ih =>
    obtain ⟨pk, pv⟩ := p
    by_cases hp : pk = k
    · simp [lookupField, hp]
    · simp [lookupField, hp, ih]

theorem lookupField_map_mergeField (stored patch : Doc) (k : String) :
    lookupField (stored.map (mergeField patch)) k =
      match lookupField stored k with
      | none => none
      | some w =>
        match lookupField patch k with
        | some v => some v
        | none => some w := by
  induction stored with
  | nil => simp [lookupField]
  | cons p rest ih =>
    obtain ⟨pk, pv⟩ := p
    by_cases hp : pk = k
    · subst hp
      cases hq : lookupField patch pk <;>
        simp [List.map_cons, mergeField, lookupField, hq]
    · cases hq : lookupField patch pk <;>
        simp [List.map_cons, mergeField, lookupField, hq, hp, ih]

theorem lookupField_filter_new (stored patch : Doc) (k : String) :
    lookupField (patch.filter (fun p => (lookupField stored p.1).isNone)) k =
      match lookupField stored k with
      | some _ => none
      | none => lookupField patch k := by
  induction patch with
  | nil => cases lookupField stored k <;> simp [lookupField]
  | cons q rest ih =>
    obtain ⟨qk, qv⟩ := q
    by_cases hq : qk = k
    · subst hq
      cases hs : lookupField stored qk with
      | none => simp [List.filter_cons, hs, lookupField, ih]
      | some w => simp [List.filter_cons, hs, lookupField, ih]
    · cases hs : lookupField stored qk with
      | none => simp [List.filter_cons, hs, lookupField, hq, ih]
      | some w => simp [List.filter_cons, hs, lookupField, hq, ih]

theorem mergePatch_lookup_present (stored patch : Doc) (k : String) (v : JValue)
    (h : lookupField patch k = some v) :
    lookupField (mergePatch stored patch) k = some v := by
  rw [mergePatch, lookupField_append, lookupField_map_mergeField, lookupField_filter_new]
  cases hs : lookupField stored k <;> simp [h]

theorem mergePatch_lookup_absent (stored patch : Doc) (k : String)
    (h : lookupField patch k = none) :
    lookupField (mergePatch stored patch) k = lookupField stored k := by
  rw [mergePatch, lookupField_append, lookupField_map_mergeField, lookupField_filter_new]
  cases hs : lookupField stored k <;> simp [h]

theorem encodeB32Chars_length (w n : Nat) : (encodeB32Chars w n).length = w := by
  induction w generalizing n with
  | zero => rfl
  | succ w ih => simp [encodeB32Chars, ih]

theorem ulidMake_ne_empty (time rand : Nat) : ulidMake time rand ≠ "" := by
  intro h
  have hd : (ulidMake time rand).data = ("" : String).data := by rw [h]
  rw [ulidMake] at hd
  have hlen := congrArg List.length hd
  simp [encodeB32Chars_length] at hlen

theorem Insert_ok_spec (t : Table) (time rand : Nat) (state : List Doc)
    (doc doc' : Doc) (vID : JValue)
    (hID : lookupField doc "ID" = some vID)
    (hok : (t.Insert time rand state doc).1 = .ok doc') :
    doc' = (if vID.isZero then setField doc "ID" (.str (ulidMake time rand)) else doc) ∧
    (t.Insert time rand state doc).2 = state ++ [doc'] ∧
    state.any (fun r => (projectID r == projectID doc') && (projectID r).isSome) = false := by
  have key : t.Insert time rand state doc =
      (if state.any (fun r =>
          (projectID r ==
            projectID (if vID.isZero then setField doc "ID" (.str (ulidMake time rand)) else doc))
          && (projectID r).isSome) then
        (.error (.statement ("inserting document in " ++ t.Name)), state)
      else
        ((.ok (if vID.isZero then setField doc "ID" (.str (ulidMake time rand)) else doc)),
          state ++ [if vID.isZero then setField doc "ID" (.str (ulidMake time rand)) else doc])) := by
    simp only [Table.Insert, hID]
  rw [key] at hok ⊢
  cases ha : state.any (fun r =>
      (projectID r ==
        projectID (if vID.isZero then setField doc "ID" (.str (ulidMake time rand)) else doc))
      && (projectID r).isSome) with
  | true => rw [ha] at hok; simp at hok
  | false =>
    rw [ha] at hok
    simp only [Bool.false_eq_true, if_false] at hok ⊢
    have hdc : (if vID.isZero then setField doc "ID" (.str (ulidMake time rand)) else doc) = doc' := by
      simpa using hok
    refine ⟨hdc.symm, ?_, ?_⟩
    · rw [hdc]
    · rw [← hdc]
      exact ha

/-! ## Claims -/

/-- C5 (amended): `Bind` succeeds — invoking the engine's positional binding
call at the given position — exactly for the closed set of supported value
kinds: signed integers of widths `int`, `int16`, `int32`, `int64` (but not
`int8`, which has no arm in the type-switch), boolean, byte sequence, 32/64-bit
float, null, and text; a value of any other kind fails with the
`UnsupportedBindType` error naming the offending value (its `%v` rendering)
and its kind (its `%T` type name). -/
theorem bind_supported_kinds (i : Nat) (v : GoValue) :
    ((∃ c : BindCall, Bind i v = .ok c ∧ c.pos = i) ↔ supportedKind v = true) ∧
    (supportedKind v = false →
      Bind i v = .error (.unsupportedBind (goRender v) (goTypeName v))) := by
  refine ⟨⟨fun ⟨c, hc, _⟩ => ?_, fun h => Bind_ok_of_supported h i⟩,
    fun h => Bind_unsupported_error h i⟩
  cases v <;> simp_all [Bind, supportedKind]

/-- Counterexample to C5 as stated: `int8` is a signed integer of a native
width, yet `Bind` never succeeds on an `int8` value — the source type-switch
has no `int8` arm, so the value falls to the default arm and `Bind` fails with
the `UnsupportedBindType` error. -/
theorem bind_int8_counterexample :
    (∀ c : BindCall, Bind 1 (GoValue.int8 5) ≠ .ok c) ∧
    Bind 1 (GoValue.int8 5) = .error (.unsupportedBind "5" "int8") :=
  ⟨fun _ h => by simp [Bind] at h, rfl⟩

/-- Witness for C5: a supported kind (text) binds at its position; an
unsupported composite kind fails with the error naming value and type. -/
theorem bind_supported_kinds_witness :
    (∃ c : BindCall, Bind 2 (GoValue.string "yoda") = .ok c ∧ c.pos = 2) ∧
    Bind 1 (GoValue.other "main.Jedi" "jedi-value") =
      .error (.unsupportedBind "jedi-value" "main.Jedi") :=
  ⟨(bind_supported_kinds 2 (GoValue.string "yoda")).1.mpr rfl,
   (bind_supported_kinds 1 (GoValue.other "main.Jedi" "jedi-value")).2 rfl⟩

/-- C8: for a record with no `ID` field, `Insert` fails with the
`MissingIDField` error and persists nothing (the table state is unchanged);
the check is a pure function of the record passed to each call, so it runs on
every insert. -/
theorem insert_missing_id_field (t : Table) (time rand : Nat) (state : List Doc)
    (doc : Doc) (h : lookupField doc "ID" = none) :
    t.Insert time rand state doc = (.error .missingIDField, state) := by
  simp [Table.Insert, h]

/-- Witness for C8 at a record type with fields `Name` only. -/
theorem insert_missing_id_field_witness :
    (NewTable "jedis").Insert 0 0 [] [("Name", JValue.str "yoda")] =
      (.error .missingIDField, []) :=
  insert_missing_id_field (NewTable "jedis") 0 0 [] [("Name", JValue.str "yoda")] rfl

/-- C3: over any query whose fragments match zero rows (and whose arguments
are all bindable), `One` returns exactly the `ErrNoRows` sentinel — not a
crash and not any other error kind. -/
theorem one_zero_rows_sentinel (t : Table) (sqls : List SQL) (pred : Doc → Bool)
    (state : List Doc)
    (hargs : ∀ a ∈ (sqls.map SQL.Args).flatten, supportedKind a = true)
    (hzero : state.filter pred = []) :
    t.One sqls pred state = .error .noRows := by
  obtain ⟨cs, hcs⟩ := bindArgsFrom_ok_of_all hargs 1
  rw [Table.One, bindSQLQuery, bindSQLQueryAux_eq_flatten, hcs, hzero]
  rfl

/-- Witness for C3: `One` by an `ID` absent from the table. -/
theorem one_zero_rows_sentinel_witness :
    (NewTable "jedis").One [ByID "x"] (byIDPred "x") [[("ID", JValue.str "A")]] =
      .error .noRows :=
  one_zero_rows_sentinel (NewTable "jedis") [ByID "x"] (byIDPred "x")
    [[("ID", JValue.str "A")]] (by decide) rfl

/-- C4: over any query whose fragments match zero rows (and whose arguments
are all bindable), `All` returns the empty sequence with no error — neither a
hard error nor the `ErrNoRows` sentinel, deliberately unlike `One`. -/
theorem all_zero_rows_empty (t : Table) (sqls : List SQL) (pred : Doc → Bool)
    (state : List Doc)
    (hargs : ∀ a ∈ (sqls.map SQL.Args).flatten, supportedKind a = true)
    (hzero : state.filter pred = []) :
    t.All sqls pred state = .ok [] := by
  obtain ⟨cs, hcs⟩ := bindArgsFrom_ok_of_all hargs 1
  rw [Table.All, bindSQLQuery, bindSQLQueryAux_eq_flatten, hcs, hzero]

/-- Witness for C4: `All` by an `ID` absent from the table. -/
theorem all_zero_rows_empty_witness :
    (NewTable "jedis").All [ByID "x"] (byIDPred "x") [[("ID", JValue.str "A")]] =
      .ok [] :=
  all_zero_rows_empty (NewTable "jedis") [ByID "x"] (byIDPred "x")
    [[("ID", JValue.str "A")]] (by decide) rfl

/-- C9: an empty fragment list is permitted and addresses the entire table:
the built query texts carry no where clause, `One` returns the first stored
record, `All` returns every stored record, and `Delete` removes every row. -/
theorem empty_fragments_whole_table (t : Table) (state : List Doc) (d : Doc) :
    oneQueryText t [] = "select json(data) from " ++ t.Name ++ " limit 1" ∧
    allQueryText t [] = "select json(data) from " ++ t.Name ∧
    deleteQueryText t [] = "delete from " ++ t.Name ∧
    t.One [] emptyWherePred (d :: state) = .ok d ∧
    t.All [] emptyWherePred state = .ok state ∧
    t.Delete [] emptyWherePred state = (none, []) := by
  refine ⟨?_, ?_, ?_, ?_, ?_, ?_⟩
  · simp [oneQueryText, addSQLQuery]
  · simp [allQueryText, addSQLQuery]
  · simp [deleteQueryText, addSQLQuery]
  · simp [Table.One, bindSQLQuery, bindSQLQueryAux, emptyWherePred]
  · simp [Table.All, bindSQLQuery, bindSQLQueryAux, emptyWherePred]
  · simp [Table.Delete, bindSQLQuery, bindSQLQueryAux, emptyWherePred]

/-- C6: `One` builds
`select json(data) from <name> <concatenated fragments> limit 1` where the
fragment clauses are concatenated left to right, each preceded by a space;
`All` builds the identical text without ` limit 1`; and all fragment argument
values are bound at consecutive positions starting at 1, in the left-to-right
order of the flattened argument lists (the order the placeholders appear in
the concatenated text). -/
theorem query_composition (t : Table) (sqls : List SQL) :
    oneQueryText t sqls =
      "select json(data) from " ++ t.Name ++
        String.join (sqls.map (fun part => " " ++ part.Query)) ++ " limit 1" ∧
    allQueryText t sqls =
      "select json(data) from " ++ t.Name ++
        String.join (sqls.map (fun part => " " ++ part.Query)) ∧
    bindSQLQuery sqls = bindArgsFrom 1 ((sqls.map SQL.Args).flatten) ∧
    (∀ cs, bindSQLQuery sqls = .ok cs →
      cs.map BindCall.pos = List.range' 1 ((sqls.map SQL.Args).flatten).length ∧
      List.Forall₂ (fun a c => Bind c.pos a = .ok c) ((sqls.map SQL.Args).flatten) cs) := by
  refine ⟨?_, ?_, bindSQLQueryAux_eq_flatten sqls 1, fun cs hcs => ?_⟩
  · rw [oneQueryText, addSQLQuery_eq_join]
  · rw [allQueryText, addSQLQuery_eq_join]
  · rw [bindSQLQuery, bindSQLQueryAux_eq_flatten] at hcs
    exact bindArgsFrom_ok_spec hcs

/-- Witness for C6: two fragments with one argument each bind at positions 1
and 2 in fragment order. -/
theorem query_composition_witness :
    ([⟨1, .text "a"⟩, ⟨2, .int64 42⟩] : List BindCall).map BindCall.pos =
      List.range' 1
        (([ByID "a", ⟨"and data->>'Age' = ?", [.int 42]⟩].map SQL.Args).flatten).length ∧
    List.Forall₂ (fun a c => Bind c.pos a = .ok c)
      (([ByID "a", ⟨"and data->>'Age' = ?", [.int 42]⟩].map SQL.Args).flatten)
      [⟨1, .text "a"⟩, ⟨2, .int64 42⟩] :=
  (query_composition (NewTable "jedis")
    [ByID "a", ⟨"and data->>'Age' = ?", [.int 42]⟩]).2.2.2
    [⟨1, .text "a"⟩, ⟨2, .int64 42⟩] rfl

/-- C10: when any fragment argument supplied to `Delete`, `Patch`, or
`Replace` has an unsupported kind, the operation returns the
`UnsupportedBindType` binding error and the stored table data is left entirely
unchanged (the statement is never stepped). -/
theorem bind_failure_atomicity (t : Table) (doc : Doc) (sqls : List SQL)
    (pred : Doc → Bool) (state : List Doc)
    (h : ∃ a ∈ (sqls.map SQL.Args).flatten, supportedKind a = false) :
    ∃ val ty,
      t.Delete sqls pred state = (some (.unsupportedBind val ty), state) ∧
      t.Patch doc sqls pred state = (some (.unsupportedBind val ty), state) ∧
      t.Replace doc sqls pred state = (some (.unsupportedBind val ty), state) := by
  obtain ⟨val, ty, he⟩ := bindArgsFrom_error_of_unsupported h 1
  have hfrag : ∀ partQ : String,
      bindSQLQuery (⟨partQ, [.bytes (strBytes (renderDoc doc))]⟩ :: sqls) =
        .error (.unsupportedBind val ty) := by
    intro partQ
    rw [bindSQLQuery, bindSQLQueryAux_eq_flatten]
    simp only [List.map_cons, List.flatten_cons, List.singleton_append]
    simp [bindArgsFrom, Bind, bindArgsFrom_error_indep he 2]
  refine ⟨val, ty, ?_, ?_, ?_⟩
  · rw [Table.Delete, bindSQLQuery, bindSQLQueryAux_eq_flatten, he]
  · rw [Table.Patch, Table.patchOrReplace]
    rw [hfrag "set data = jsonb_patch(data, ?)"]
  · rw [Table.Replace, Table.patchOrReplace]
    rw [hfrag "set data = jsonb(?)"]

/-- Witness for C10: a fragment whose argument is a composite value. -/
theorem bind_failure_atomicity_witness :
    ∃ val ty,
      (NewTable "jedis").Delete [⟨"where Age = ?", [GoValue.other "main.Jedi" "bad"]⟩]
          emptyWherePred [[("ID", JValue.str "A")]] =
        (some (.unsupportedBind val ty), [[("ID", JValue.str "A")]]) ∧
      (NewTable "jedis").Patch [] [⟨"where Age = ?", [GoValue.other "main.Jedi" "bad"]⟩]
          emptyWherePred [[("ID", JValue.str "A")]] =
        (some (.unsupportedBind val ty), [[("ID", JValue.str "A")]]) ∧
      (NewTable "jedis").Replace [] [⟨"where Age = ?", [GoValue.other "main.Jedi" "bad"]⟩]
          emptyWherePred [[("ID", JValue.str "A")]] =
        (some (.unsupportedBind val ty), [[("ID", JValue.str "A")]]) :=
  bind_failure_atomicity (NewTable "jedis") []
    [⟨"where Age = ?", [GoValue.other "main.Jedi" "bad"]⟩]
    emptyWherePred [[("ID", JValue.str "A")]] (by decide)

/-- C1: on a successful insert of a record whose string `ID` field is empty,
`Insert` returns and persists a copy of the record whose `ID` is the freshly
generated non-empty ULID, equal to the original on every other field, while
the caller's record keeps its empty `ID`; on a successful insert of a record
whose `ID` is non-empty, exactly the given record — its `ID` unchanged, no
regeneration — is returned and persisted. -/
theorem insert_id_policy (t : Table) (time rand : Nat) (state : List Doc)
    (doc doc' : Doc) (s : String)
    (hID : lookupField doc "ID" = some (.str s))
    (hok : (t.Insert time rand state doc).1 = .ok doc') :
    (s = "" →
      doc' = setField doc "ID" (.str (ulidMake time rand)) ∧
      lookupField doc' "ID" = some (.str (ulidMake time rand)) ∧
      ulidMake time rand ≠ "" ∧
      (∀ k, k ≠ "ID" → lookupField doc' k = lookupField doc k) ∧
      lookupField doc "ID" = some (.str "") ∧
      (t.Insert time rand state doc).2 = state ++ [doc']) ∧
    (s ≠ "" →
      doc' = doc ∧
      lookupField doc' "ID" = some (.str s) ∧
      (t.Insert time rand state doc).2 = state ++ [doc']) := by
  obtain ⟨hdc, hsnd, -⟩ := Insert_ok_spec t time rand state doc doc' (.str s) hID hok
  constructor
  · intro hs
    subst hs
    have hdc' : doc' = setField doc "ID" (.str (ulidMake time rand)) := by
      simpa [JValue.isZero] using hdc
    refine ⟨hdc', ?_, ulidMake_ne_empty time rand, ?_, hID, hsnd⟩
    · rw [hdc', lookupField_setField_self, hID]
      rfl
    · intro k hk
      rw [hdc', lookupField_setField_ne doc "ID" k _ hk]
  · intro hs
    have hdc' : doc' = doc := by
      simpa [JValue.isZero, hs] using hdc
    subst hdc'
    exact ⟨rfl, hID, hsnd⟩

/-- Witness for C1: inserting a record with empty `ID` into an empty table. -/
theorem insert_id_policy_witness :
    ([("ID", JValue.str (ulidMake 0 0)), ("Name", JValue.str "yoda")] : Doc) =
        setField [("ID", JValue.str ""), ("Name", JValue.str "yoda")] "ID"
          (.str (ulidMake 0 0)) ∧
    lookupField [("ID", JValue.str (ulidMake 0 0)), ("Name", JValue.str "yoda")] "ID" =
      some (.str (ulidMake 0 0)) ∧
    ulidMake 0 0 ≠ "" ∧
    (∀ k, k ≠ "ID" →
      lookupField [("ID", JValue.str (ulidMake 0 0)), ("Name", JValue.str "yoda")] k =
        lookupField [("ID", JValue.str ""), ("Name", JValue.str "yoda")] k) ∧
    lookupField [("ID", JValue.str ""), ("Name", JValue.str "yoda")] "ID" =
      some (.str "") ∧
    ((NewTable "jedis").Insert 0 0 []
        [("ID", JValue.str ""), ("Name", JValue.str "yoda")]).2 =
      [] ++ [[("ID", JValue.str (ulidMake 0 0)), ("Name", JValue.str "yoda")]] :=
  (insert_id_policy (NewTable "jedis") 0 0 []
    [("ID", JValue.str ""), ("Name", JValue.str "yoda")]
    [("ID", JValue.str (ulidMake 0 0)), ("Name", JValue.str "yoda")]
    "" rfl rfl).1 rfl

/-- C2: on a successful insert, fetching with `One` using the `ByID` fragment
built from the inserted record's `ID` on the post-insert table state returns
exactly the persisted record. -/
theorem insert_byid_roundtrip (t : Table) (time rand : Nat) (state : List Doc)
    (doc doc' : Doc) (s : String)
    (hID : lookupField doc "ID" = some (.str s))
    (hok : (t.Insert time rand state doc).1 = .ok doc') :
    ∃ id, lookupField doc' "ID" = some (.str id) ∧
      t.One [ByID id] (byIDPred id) (t.Insert time rand state doc).2 = .ok doc' := by
  obtain ⟨hdc, hsnd, ha⟩ := Insert_ok_spec t time rand state doc doc' (.str s) hID hok
  have hid : ∃ id, lookupField doc' "ID" = some (JValue.str id) := by
    by_cases hs : s = ""
    · subst hs
      have hdc' : doc' = setField doc "ID" (.str (ulidMake time rand)) := by
        simpa [JValue.isZero] using hdc
      refine ⟨ulidMake time rand, ?_⟩
      rw [hdc', lookupField_setField_self, hID]
      rfl
    · have hdc' : doc' = doc := by simpa [JValue.isZero, hs] using hdc
      exact ⟨s, by rw [hdc', hID]⟩
  obtain ⟨id, hlook⟩ := hid
  have hproj : projectID doc' = some id := by
    simp [projectID, hlook, jvalText]
  refine ⟨id, hlook, ?_⟩
  rw [hsnd]
  have hfilter : (state ++ [doc']).filter (byIDPred id) = [doc'] := by
    rw [List.filter_append]
    have h1 : state.filter (byIDPred id) = [] := by
      rw [List.filter_eq_nil_iff]
      intro r hr hbyid
      have hthis := (List.any_eq_false.mp ha) r hr
      apply hthis
      have hrid : projectID r = some id := by
        have hb : (projectID r == some id) = true := by simpa [byIDPred] using hbyid
        exact eq_of_beq hb
      rw [hrid, hproj]
      simp
    rw [h1]
    simp [List.filter, byIDPred, hproj]
  rw [Table.One]
  rw [show bindSQLQuery [ByID id] = Except.ok [⟨1, .text id⟩] from rfl]
  rw [hfilter]
  rfl

/-- Witness for C2: the generated-`ID` insert round-trips through `ByID`. -/
theorem insert_byid_roundtrip_witness :
    ∃ id,
      lookupField [("ID", JValue.str (ulidMake 0 0)), ("Name", JValue.str "yoda")] "ID" =
        some (.str id) ∧
      (NewTable "jedis").One [ByID id] (byIDPred id)
          ((NewTable "jedis").Insert 0 0 []
            [("ID", JValue.str ""), ("Name", JValue.str "yoda")]).2 =
        .ok [("ID", JValue.str (ulidMake 0 0)), ("Name", JValue.str "yoda")] :=
  insert_byid_roundtrip (NewTable "jedis") 0 0 []
    [("ID", JValue.str ""), ("Name", JValue.str "yoda")]
    [("ID", JValue.str (ulidMake 0 0)), ("Name", JValue.str "yoda")]
    "" rfl rfl

/-- C7: `Patch` and `Replace` both build
`update <name> <set-clause> <concatenated fragments>` with the set clause
prepended, so its single placeholder — holding the serialized record — is
bound first at position 1, ahead of all the fragments' own placeholders
(which start at position 2); on execution, `Patch`'s set clause applies the
document merge to each addressed stored document (fields present in the
record overwrite, fields absent stay), while `Replace`'s discards the stored
document entirely and writes the record wholesale. -/
theorem patch_replace_composition (t : Table) (doc : Doc) (sqls : List SQL)
    (pred : Doc → Bool) (state : List Doc) :
    patchOrReplaceQuery t "set data = jsonb_patch(data, ?)"
        [.bytes (strBytes (renderDoc doc))] sqls =
      "update " ++ t.Name ++ " set data = jsonb_patch(data, ?)" ++ addSQLQuery sqls ∧
    patchOrReplaceQuery t "set data = jsonb(?)"
        [.bytes (strBytes (renderDoc doc))] sqls =
      "update " ++ t.Name ++ " set data = jsonb(?)" ++ addSQLQuery sqls ∧
    (∀ (partQ : String) (cs : List BindCall),
      bindSQLQuery (⟨partQ, [.bytes (strBytes (renderDoc doc))]⟩ :: sqls) = .ok cs →
      ∃ rest, cs = ⟨1, .bytes (strBytes (renderDoc doc))⟩ :: rest ∧
        bindSQLQueryAux 2 sqls = .ok rest) ∧
    ((∀ a ∈ (sqls.map SQL.Args).flatten, supportedKind a = true) →
      t.Patch doc sqls pred state =
        (none, state.map (fun d => if pred d then mergePatch d doc else d)) ∧
      t.Replace doc sqls pred state =
        (none, state.map (fun d => if pred d then doc else d))) ∧
    (∀ stored k v, lookupField doc k = some v →
      lookupField (mergePatch stored doc) k = some v) ∧
    (∀ stored k, lookupField doc k = none →
      lookupField (mergePatch stored doc) k = lookupField stored k) := by
  refine ⟨?_, ?_, fun partQ cs hcs => ?_, fun hargs => ?_, ?_, ?_⟩
  · simp [patchOrReplaceQuery, addSQLQuery, String.append_assoc]
  · simp [patchOrReplaceQuery, addSQLQuery, String.append_assoc]
  · rw [bindSQLQuery, bindSQLQueryAux] at hcs
    rw [show bindArgsFrom 1 (SQL.Args ⟨partQ, [.bytes (strBytes (renderDoc doc))]⟩) =
          .ok [⟨1, .bytes (strBytes (renderDoc doc))⟩] from rfl] at hcs
    cases haux : bindSQLQueryAux 2 sqls with
    | error e =>
      rw [show (1 + (SQL.Args ⟨partQ, [.bytes (strBytes (renderDoc doc))]⟩).length) = 2
            from rfl, haux] at hcs
      cases hcs
    | ok rest =>
      rw [show (1 + (SQL.Args ⟨partQ, [.bytes (strBytes (renderDoc doc))]⟩).length) = 2
            from rfl, haux] at hcs
      cases hcs
      exact ⟨rest, rfl, rfl⟩
  · obtain ⟨cs, hcs⟩ := bindArgsFrom_ok_of_all hargs 2
    have hbind : ∀ partQ : String,
        bindSQLQuery (⟨partQ, [.bytes (strBytes (renderDoc doc))]⟩ :: sqls) =
          .ok (⟨1, .bytes (strBytes (renderDoc doc))⟩ :: cs) := by
      intro partQ
      rw [bindSQLQuery, bindSQLQueryAux]
      rw [show bindArgsFrom 1 (SQL.Args ⟨partQ, [.bytes (strBytes (renderDoc doc))]⟩) =
            .ok [⟨1, .bytes (strBytes (renderDoc doc))⟩] from rfl]
      rw [show (1 + (SQL.Args ⟨partQ, [.bytes (strBytes (renderDoc doc))]⟩).length) = 2
            from rfl]
      rw [bindSQLQueryAux_eq_flatten, hcs]
      rfl
    constructor
    · rw [Table.Patch, Table.patchOrReplace, hbind "set data = jsonb_patch(data, ?)"]
    · rw [Table.Replace, Table.patchOrReplace, hbind "set data = jsonb(?)"]
  · exact fun stored k v h => mergePatch_lookup_present stored doc k v h
  · exact fun stored k h => mergePatch_lookup_absent stored doc k h

/-- Witness for C7: patching `{Name: darth}` over a stored
`{ID: x, Name: luke, Age: 42}` merges, while replacing overwrites wholesale. -/
theorem patch_replace_composition_witness :
    (NewTable "jedis").Patch [("Name", JValue.str "darth")] [ByID "x"] (byIDPred "x")
        [[("ID", JValue.str "x"), ("Name", JValue.str "luke"), ("Age", JValue.int 42)]] =
      (none,
        [[("ID", JValue.str "x"), ("Name", JValue.str "darth"), ("Age", JValue.int 42)]]) ∧
    (NewTable "jedis").Replace [("Name", JValue.str "darth")] [ByID "x"] (byIDPred "x")
        [[("ID", JValue.str "x"), ("Name", JValue.str "luke"), ("Age", JValue.int 42)]] =
      (none, [[("Name", JValue.str "darth")]]) := by
  have h := (patch_replace_composition (NewTable "jedis") [("Name", JValue.str "darth")]
    [ByID "x"] (byIDPred "x")
    [[("ID", JValue.str "x"), ("Name", JValue.str "luke"),
      ("Age", JValue.int 42)]]).2.2.2.1 (by decide)
  exact ⟨by rw [h.1]; rfl, by rw [h.2]; rfl⟩

end Sqjdb
